import Mathlib

/-!
Verification of the Ouellet document pipeline (`content_processor.py`,
`master_pipeline.py`) against its natural-language specification.

The Python source is shallowly embedded below. External capabilities
(the tiktoken tokenizer, the OpenAI HTTP endpoint, hashlib.md5, OCR, the
filesystem) are modelled as explicit parameters or oracles; everything the
repository itself computes is translated directly from the source.
All definitions come first, followed by all theorems.
-/

namespace Ouellet

/-! ## Abstract tokenizer (external `tiktoken` capability)

`tiktoken.encoding_for_model("gpt-4")` supplies `encode : str -> list of
token ids` and `decode : list of token ids -> str`. BPE decoding maps each
token id to its byte string and concatenates them in order, so `decode`
is modelled as a per-token decode concatenated in order. -/

structure Tokenizer where
  encode : String → List Nat
  decodeTok : Nat → String

/-- Decode of a token list: concatenation of the per-token decodes. -/
def decode (tk : Tokenizer) (ts : List Nat) : String :=
  String.join (ts.map tk.decodeTok)

/-! ## Token chunker (`send_to_gpt`, content_processor.py lines 219-224)

Python:
```
tokens = encoding.encode(content)
chunks = []
for i in range(0, len(tokens), max_chunk_tokens):
    chunk = encoding.decode(tokens[i:i + max_chunk_tokens])
    chunks.append(chunk)
```
The stride loop consumes at least one token per round (when
`max_chunk_tokens >= 1`), so it is embedded with `tokens.length` as fuel.
`range(0, n, 0)` raises `ValueError` in Python; the `m = 0` guard returning
`[]` marks that unreachable case (all claims assume `max_tokens >= 1`). -/

def chunkAux (m : Nat) : Nat → List Nat → List (List Nat)
  | _, [] => []
  | 0, _ :: _ => []
  | fuel + 1, t :: ts => List.take m (t :: ts) :: chunkAux m fuel (List.drop m (t :: ts))

def chunkTokens (m : Nat) (tokens : List Nat) : List (List Nat) :=
  if m = 0 then [] else chunkAux m tokens.length tokens

/-! ## Restructuring client (`send_to_gpt`, content_processor.py lines 226-267)

Each chunk triggers exactly one `session.post` to the chat-completions
endpoint (transport-level urllib3 retries live below this abstraction).
The observable outcome of one attempt, as distinguished by the source's
exception handlers, is:
  * `requestError` — `requests.exceptions.RequestException` (network
    failure, timeout, invalid JSON body in requests >= 2.27): caught,
    chunk skipped;
  * `httpError` — `raise_for_status` throws `HTTPError` on a non-2xx
    status: caught, chunk skipped;
  * `keyError` — the JSON parses but `['choices']`, `['message']` or
    `['content']` is missing, raising `KeyError`: caught, chunk skipped;
  * `emptyChoices` — the JSON parses and `choices` is an empty list, so
    `['choices'][0]` raises `IndexError`, which NO handler catches: the
    exception propagates out of `send_to_gpt`;
  * `success content` — 2xx with `choices[0].message.content` present.
-/

inductive GptAttempt where
  | requestError
  | httpError
  | keyError
  | emptyChoices
  | success (content : String)

/-- Contribution of one chunk to the accumulated result: a successful
response contributes its content followed by a line break, a failed chunk
contributes nothing. -/
def gptSel (api : Nat → String → GptAttempt) (p : Nat × String) : Option String :=
  match api p.1 p.2 with
  | GptAttempt.success g => some (g ++ "\n")
  | _ => none

/-- The per-chunk loop of `send_to_gpt` (lines 228-265): accumulates
`gpt_content + "\n"` on success, `continue`s on the three caught exception
classes, and lets `IndexError` propagate on an empty `choices` list.
The second component counts POST requests issued. -/
def sendLoop (api : Nat → String → GptAttempt) :
    List String → Nat → String → Except String String × Nat
  | [], _, acc => (Except.ok acc, 0)
  | c :: rest, idx, acc =>
    match api idx c with
    | GptAttempt.success g =>
        ((sendLoop api rest (idx + 1) (acc ++ g ++ "\n")).1,
         (sendLoop api rest (idx + 1) (acc ++ g ++ "\n")).2 + 1)
    | GptAttempt.requestError =>
        ((sendLoop api rest (idx + 1) acc).1, (sendLoop api rest (idx + 1) acc).2 + 1)
    | GptAttempt.httpError =>
        ((sendLoop api rest (idx + 1) acc).1, (sendLoop api rest (idx + 1) acc).2 + 1)
    | GptAttempt.keyError =>
        ((sendLoop api rest (idx + 1) acc).1, (sendLoop api rest (idx + 1) acc).2 + 1)
    | GptAttempt.emptyChoices => (Except.error "IndexError", 1)

/-- `send_to_gpt` (lines 179-267): chunk the content, run the loop, and
`return restructured_content if restructured_content else None` — the
empty string maps to `none`. An uncaught exception is `Except.error`.
The `Nat` component counts POST requests issued. -/
def send_to_gpt (tk : Tokenizer) (api : Nat → String → GptAttempt)
    (content : String) (maxChunkTokens : Nat) : Except String (Option String) × Nat :=
  match sendLoop api ((chunkTokens maxChunkTokens (tk.encode content)).map (decode tk)) 0 "" with
  | (Except.ok r, n) => (Except.ok (if r = "" then none else some r), n)
  | (Except.error e, n) => (Except.error e, n)

/-! ## String helpers modelling Python primitives -/

/-- Python `str.strip()`: drop whitespace from both ends. -/
def pyStrip (s : String) : String :=
  String.mk (((s.data.dropWhile Char.isWhitespace).reverse.dropWhile Char.isWhitespace).reverse)

/-- Python `sep.join(list)`. -/
def joinSep (sep : String) : List String → String
  | [] => ""
  | [x] => x
  | x :: y :: rest => x ++ sep ++ joinSep sep (y :: rest)

/-! ## Filename sanitizer (`sanitize_filename`, content_processor.py lines 78-91)

`hashlib.md5(url.encode()).hexdigest()[:8]` is an external capability; the
8-hex-character fingerprint is passed in as the `urlHash` parameter and the
theorems hypothesise that its characters are hexadecimal digits.

`re.sub(r'[^\w\-_.]', '_', filename)` replaces every character outside
`\w ∪ {-, _, .}` by an underscore. For ASCII characters Python's `\w` is
exactly `[A-Za-z0-9_]`, which `pythonWordChar` captures; Python
additionally treats non-ASCII Unicode word characters as `\w`, so the
character-set theorem below restricts its identifier to ASCII, where this
model is exact. -/

def pythonWordChar (c : Char) : Bool := c.isAlphanum || c = '_'

def sanitizeChar (c : Char) : Char :=
  if pythonWordChar c || c = '-' || c = '.' then c else '_'

/-- Python (posix) `os.path.basename`: the part after the last slash. -/
def basenameList (l : List Char) : List Char :=
  l.foldl (fun acc c => if c = '/' then [] else acc ++ [c]) []

def basename (s : String) : String := String.mk (basenameList s.data)

/-- Index of the last dot of the list, if any. -/
def lastDotIndex (l : List Char) : Option Nat :=
  match l.reverse.findIdx? (· = '.') with
  | none => none
  | some j => some (l.length - 1 - j)

/-- Root of Python `os.path.splitext` on a path without separators: cut at
the last dot unless every character before it is itself a dot. -/
def splitextRoot (s : String) : String :=
  match lastDotIndex s.data with
  | none => s
  | some i => if (s.data.take i).all (· = '.') then s else String.mk (s.data.take i)

def digitChar (n : Nat) : Char := Char.ofNat (48 + n)

/-- Decimal digits of `n`, most significant first, with `n` itself as fuel
(one digit is produced per division by ten, so `n` rounds suffice). -/
def toDigitsAux : Nat → Nat → List Char
  | 0, n => [digitChar (n % 10)]
  | fuel + 1, n => if n < 10 then [digitChar n] else toDigitsAux fuel (n / 10) ++ [digitChar (n % 10)]

def decimalDigits (n : Nat) : List Char := toDigitsAux n n

/-- Python `f"{n:03d}"`: decimal rendering left-padded with zeros to width 3. -/
def pad3 (n : Nat) : String :=
  String.mk (List.replicate (3 - (decimalDigits n).length) '0' ++ decimalDigits n)

/-- The stem of the sanitized name: basename of the identifier, `"index"`
fallback when empty, character replacement, then extension split
(lines 81-85). -/
def sanitizedStem (url : String) : String :=
  splitextRoot (String.mk ((if basename url = "" then "index" else basename url).data.map sanitizeChar))

/-- `sanitize_filename(url, file_type, extension, page_number)` with the
8-hex MD5 fingerprint supplied as `urlHash`. The `fileType` argument is
unused, exactly as in the source. -/
def sanitize_filename (urlHash url fileType extension : String) (pageNumber : Option Nat) : String :=
  match pageNumber with
  | some p => sanitizedStem url ++ "_page_" ++ pad3 p ++ "_" ++ urlHash ++ extension
  | none => sanitizedStem url ++ "_" ++ urlHash ++ extension

/-- ASCII character predicate (the region where the `\w` model is exact). -/
def isAsciiChar (c : Char) : Bool := decide (c.toNat ≤ 127)

/-- The character set `[A-Za-z0-9_.-]` named by the specification. -/
def allowedChar (c : Char) : Bool := c.isAlphanum || c = '-' || c = '_' || c = '.'

/-- Hexadecimal digit characters, the alphabet of `hexdigest()`. -/
def hexDigitChar (c : Char) : Bool :=
  c.isDigit || (decide ('a' ≤ c) && decide (c ≤ 'f')) || (decide ('A' ≤ c) && decide (c ≤ 'F'))

/-! ## DOCX extraction (`extract_text_from_docx`, content_processor.py lines 144-172)

The body of the document is a sequence of paragraph and table elements
(the `python-docx` traversal of `doc.element.body` with tag sniffing is the
external capability); each table carries its rows of cell texts. The loop
at lines 151-163 tries to read each walked element through a proxy taken
from a FRESH blank `Document()`:

  * line 153-155: `paragraph = Document().paragraphs[0];`
    `paragraph._element = element; current_text.append(paragraph.text)`.
    `Paragraph.__init__` binds both `_p` and `_element` to the template
    paragraph and `.text` reads `_p`, so reassigning `_element` does not
    redirect the read: the appended text is the blank template paragraph's
    own (empty) text, never the walked element's text.
  * line 157-158: `table = Document().tables[0]` — a blank document has no
    tables, so the subscript raises `IndexError` at the first table
    element. The exception propagates to the function-level
    `except Exception` at line 170, which returns `pages_content` — still
    `[]`, because the single append at line 165 sits after the loop.

So the marker-wrapped table rendering of lines 159-163 is dead code, any
table-bearing body yields zero pages, and a paragraph-only body yields one
page numbered 1 whose lines are all the template paragraph text. -/

inductive DocxElement where
  | para (text : String)
  | table (rows : List (List String))

/-- Text that `paragraph.text` actually returns at line 155: the blank
default template paragraph's text, which is empty. -/
def templateParagraphText : String := ""

/-- The body walk of lines 151-163: a paragraph element appends
`templateParagraphText` (not the walked element's text); a table element
evaluates `Document().tables[0]`, raising `IndexError` before any row is
read. -/
def docxWalk : List DocxElement → Except String (List String)
  | [] => Except.ok []
  | DocxElement.para _ :: rest =>
      match docxWalk rest with
      | Except.ok lines => Except.ok (templateParagraphText :: lines)
      | Except.error e => Except.error e
  | DocxElement.table _ :: _ => Except.error "IndexError"

/-- `extract_text_from_docx` (lines 144-172): on a clean walk, one
synthetic page numbered 1 whose text joins the collected lines with
`"\n"`; on the `IndexError` from the first table element, the handler at
line 170 returns the still-empty `pages_content`. -/
def extract_text_from_docx (body : List DocxElement) : List (Nat × String) :=
  match docxWalk body with
  | Except.ok lines => [(1, joinSep "\n" lines)]
  | Except.error _ => []

/-- The body used in the specification's DOCX table-fidelity scenario. -/
def docxExampleBody : List DocxElement :=
  [DocxElement.para "Intro",
   DocxElement.table [["A", "B"], ["1", "2"]],
   DocxElement.para "Outro"]

/-! ## PDF extraction (`extract_text_from_pdf`, content_processor.py lines 93-126)

Reading page `i` either yields its native text (`page.extract_text() or ""`)
or raises; a raising page is modelled as `Except.error`, and because the
`try` wraps the whole loop, the first raising page ends extraction with the
pages collected so far. `extract_text_with_ocr` catches all its own
exceptions and returns a string, so OCR is a total oracle indexed by the
1-based page number. -/

def formatPdfPage (pageNumber : Nat) (text : String) : String :=
  "### Page " ++ toString pageNumber ++ "\n\n" ++
  "[DÉBUT CONTENU]\n" ++ text ++ "\n[FIN CONTENU]\n\n" ++
  "Note: Si ce contenu contient des tableaux, " ++
  "veuillez les restructurer en répétant les en-têtes pour chaque entrée."

def extractPdfGo (ocr : Nat → String) : List (Except String String) → Nat → List (Nat × String)
  | [], _ => []
  | Except.error _ :: _, _ => []
  | Except.ok raw :: rest, n =>
      let text := if pyStrip raw = "" then ocr n else raw
      (if pyStrip text = "" then [] else [(n, formatPdfPage n text)]) ++ extractPdfGo ocr rest (n + 1)

def extract_text_from_pdf (ocr : Nat → String) (pages : List (Except String String)) :
    List (Nat × String) :=
  extractPdfGo ocr pages 1

/-! ## Orchestrator state (`process_files_in_directory`, `load_processed_files`,
`save_processed_file`, content_processor.py lines 269-381)

The filesystem is modelled as the `content` directory (a map from filename
to file content) plus the ledger file `logs/processed_files.txt` (its list
of lines). The in-memory `self.processed_files` set is modelled as a list
with membership. -/

structure FS where
  contentDir : String → Option String
  ledgerLines : List String

structure ProcState where
  fs : FS
  processedFiles : List String

/-- Ambient per-page context: the tokenizer, the API oracle, the MD5
fingerprint of the source basename, the source basename itself, the
current timestamp, and the path prefix `<base_dir>/content/`. -/
structure PageCtx where
  tk : Tokenizer
  api : Nat → String → GptAttempt
  urlHash : String
  sourceBase : String
  now : String
  contentPrefix : String

/-- Result of processing one page: the state afterwards, the number of
POST requests issued, and the exception (if any) propagating to the
per-file handler at line 357. -/
structure PageResult where
  state : ProcState
  llmCalls : Nat
  raised : Option String

/-- Context wrapper added around the page text before restructuring
(lines 310-314). -/
def mkContext (page : Nat) (text : String) : String :=
  "[DÉBUT PAGE " ++ toString page ++ "]\n" ++ text ++ "\n[FIN PAGE " ++ toString page ++ "]\n\n"

/-- Metadata header prepended to the restructured artifact (lines 329-335). -/
def mkMetadata (sourceBase : String) (page : Nat) (now : String) : String :=
  "---\n" ++ "source_file: " ++ sourceBase ++ "\n" ++ "page_number: " ++ toString page ++ "\n" ++
  "processed_date: " ++ now ++ "\n" ++ "---\n\n"

/-- Write a file into the `content` directory. -/
def writeContent (filename content : String) (st : ProcState) : ProcState :=
  { st with
    fs := { st.fs with
            contentDir := fun n => if n = filename then some content else st.fs.contentDir n } }

/-- `save_processed_file(save_path)` (lines 372-381): append the full path
as a ledger line and add its basename to the in-memory set. -/
def save_processed_file (contentPrefix filename : String) (st : ProcState) : ProcState :=
  { st with
    fs := { st.fs with ledgerLines := st.fs.ledgerLines ++ [contentPrefix ++ filename] },
    processedFiles := st.processedFiles ++ [basename (contentPrefix ++ filename)] }

/-- `load_processed_files` (lines 360-370): the in-memory set holds the
basename of each stripped ledger line. -/
def load_processed_files (lines : List String) : List String :=
  lines.map (fun l => basename (pyStrip l))

/-- Output filename of the restructured artifact for a page (lines 296-301). -/
def restructuredName (ctx : PageCtx) (page : Nat) : String :=
  sanitize_filename ctx.urlHash ctx.sourceBase "Doc" "_restructured.txt" (some page)

/-- Output filename of the raw-text artifact for a page (lines 340-345). -/
def rawName (ctx : PageCtx) (page : Nat) : String :=
  sanitize_filename ctx.urlHash ctx.sourceBase "Doc" "_raw_page.txt" (some page)

/-- Body of the per-page loop of `process_files_in_directory`
(lines 291-355): skip pages with empty text; compute the restructured
filename; skip if that file already exists on disk (`os.path.exists`);
otherwise call `send_to_gpt` on the wrapped page text and, on success,
write the restructured artifact, write the raw artifact, and record the
restructured path via `save_processed_file`. An absent result logs and
moves on; an uncaught exception propagates to the per-file handler. -/
def processPage (ctx : PageCtx) (page : Nat) (text : String) (st : ProcState) : PageResult :=
  if text = "" then { state := st, llmCalls := 0, raised := none }
  else if (st.fs.contentDir (restructuredName ctx page)).isSome then
    { state := st, llmCalls := 0, raised := none }
  else
    match send_to_gpt ctx.tk ctx.api (mkContext page text) 8000 with
    | (Except.error e, n) => { state := st, llmCalls := n, raised := some e }
    | (Except.ok none, n) => { state := st, llmCalls := n, raised := none }
    | (Except.ok (some restructured), n) =>
        { state := save_processed_file ctx.contentPrefix (restructuredName ctx page)
            (writeContent (rawName ctx page) text
              (writeContent (restructuredName ctx page)
                (mkMetadata ctx.sourceBase page ctx.now ++ restructured) st)),
          llmCalls := n, raised := none }

/-! ## Concrete fixtures used by witnesses and counterexamples -/

/-- Concrete tokenizer: one token per character. -/
def tkChar : Tokenizer :=
  { encode := fun s => s.data.map Char.toNat
    decodeTok := fun n => String.singleton (Char.ofNat n) }

/-- Concrete tokenizer that tokenizes everything to zero tokens. -/
def tkEmpty : Tokenizer :=
  { encode := fun _ => []
    decodeTok := fun _ => "" }

/-- API oracle: every request succeeds with content "OK". -/
def apiOk : Nat → String → GptAttempt := fun _ _ => GptAttempt.success "OK"

/-- API oracle: every request fails with a network error. -/
def apiErr : Nat → String → GptAttempt := fun _ _ => GptAttempt.requestError

/-- API oracle: the second chunk gets a well-formed 200 response whose
`choices` list is empty; the others succeed. -/
def apiMid : Nat → String → GptAttempt := fun i _ =>
  if i = 0 then GptAttempt.success "A"
  else if i = 1 then GptAttempt.emptyChoices
  else GptAttempt.success "C"

def ctxOk : PageCtx :=
  { tk := tkChar, api := apiOk, urlHash := "aaaaaaaa", sourceBase := "doc.pdf",
    now := "2026-01-01T00:00:00", contentPrefix := "crawler_output/content/" }

def ctxErr : PageCtx := { ctxOk with api := apiErr }

def ctxMid : PageCtx := { ctxOk with api := apiMid }

/-- A state whose Ledger (file and in-memory set) already contains the
restructured output path for page 1 of `doc.pdf`, while the `content`
directory is empty. -/
def stLedgerOnly : ProcState :=
  { fs := { contentDir := fun _ => none
            ledgerLines := ["crawler_output/content/doc_page_001_aaaaaaaa_restructured.txt"] }
    processedFiles :=
      load_processed_files ["crawler_output/content/doc_page_001_aaaaaaaa_restructured.txt"] }

/-- A state where the restructured artifact for page 1 of `doc.pdf` exists
on disk and its companion raw artifact holds stale content "OLDRAW". -/
def stOnDisk : ProcState :=
  { fs := { contentDir := fun n =>
              if n = restructuredName ctxOk 1 then some "done"
              else if n = rawName ctxOk 1 then some "OLDRAW"
              else none
            ledgerLines := [] }
    processedFiles := [] }

/-- The empty starting state. -/
def stEmpty : ProcState :=
  { fs := { contentDir := fun _ => none, ledgerLines := [] }, processedFiles := [] }

/-- OCR oracle returning empty text for every page. -/
def ocrEmpty : Nat → String := fun _ => ""

/-! # Theorems -/

/-! ## Facts about `String.join` and `String.append` -/

theorem strFoldl_append (l : List String) :
    ∀ a : String, l.foldl (· ++ ·) a = a ++ l.foldl (· ++ ·) "" := by
  induction l with
  | nil => intro a; simp [String.append_empty]
  | cons s l ih =>
    intro a
    show l.foldl (· ++ ·) (a ++ s) = a ++ l.foldl (· ++ ·) ("" ++ s)
    rw [ih (a ++ s), ih ("" ++ s), String.empty_append, String.append_assoc]

theorem strJoin_cons (s : String) (l : List String) :
    String.join (s :: l) = s ++ String.join l := by
  show l.foldl (· ++ ·) ("" ++ s) = s ++ String.join l
  rw [String.empty_append]
  exact strFoldl_append l s

theorem strJoin_append (l₁ l₂ : List String) :
    String.join (l₁ ++ l₂) = String.join l₁ ++ String.join l₂ := by
  induction l₁ with
  | nil => simp [String.join, String.empty_append]
  | cons s l ih =>
    rw [List.cons_append, strJoin_cons, strJoin_cons, ih, String.append_assoc]

theorem str_eq_empty_of_data_eq_nil {s : String} (h : s.data = []) : s = "" :=
  String.ext h

theorem append_newline_ne_empty (g : String) : g ++ "\n" ≠ "" := by
  intro hx
  have hdata : (g ++ "\n").data = ("" : String).data := congrArg String.data hx
  rw [String.data_append] at hdata
  simp at hdata

theorem strJoin_eq_empty_iff (l : List String) (h : ∀ x ∈ l, x ≠ "") :
    String.join l = "" ↔ l = [] := by
  induction l with
  | nil => exact ⟨fun _ => rfl, fun _ => rfl⟩
  | cons x xs ih =>
    rw [strJoin_cons]
    constructor
    · intro hx
      exfalso
      apply h x (List.mem_cons_self x xs)
      have hnil : x.data ++ (String.join xs).data = ([] : List Char) := by
        have hdata := congrArg String.data hx
        rwa [String.data_append] at hdata
      exact str_eq_empty_of_data_eq_nil (List.append_eq_nil.mp hnil).1
    · intro hx
      exact absurd hx (List.cons_ne_nil x xs)

/-! ## Chunker lemmas and claim C2 -/

theorem chunkAux_nil (m fuel : Nat) : chunkAux m fuel [] = [] := by
  cases fuel <;> rfl

theorem chunkAux_join (m : Nat) (hm : 1 ≤ m) :
    ∀ (fuel : Nat) (l : List Nat), l.length ≤ fuel → (chunkAux m fuel l).flatten = l := by
  intro fuel
  induction fuel with
  | zero =>
    intro l hl
    have : l = [] := List.eq_nil_of_length_eq_zero (Nat.le_zero.mp hl)
    subst this; rfl
  | succ fuel ih =>
    intro l hl
    cases l with
    | nil => rfl
    | cons t ts =>
      show (List.take m (t :: ts) :: chunkAux m fuel (List.drop m (t :: ts))).flatten = t :: ts
      rw [List.flatten_cons, ih (List.drop m (t :: ts)) ?_, List.take_append_drop]
      rw [List.length_drop]
      simp only [List.length_cons] at hl ⊢
      omega

theorem chunkAux_mem (m : Nat) (hm : 1 ≤ m) :
    ∀ (fuel : Nat) (l : List Nat) (c : List Nat), l.length ≤ fuel →
      c ∈ chunkAux m fuel l → c.length ≤ m ∧ c ≠ [] := by
  intro fuel
  induction fuel with
  | zero =>
    intro l c hl hc
    have : l = [] := List.eq_nil_of_length_eq_zero (Nat.le_zero.mp hl)
    subst this; simp [chunkAux] at hc
  | succ fuel ih =>
    intro l c hl hc
    cases l with
    | nil => simp [chunkAux] at hc
    | cons t ts =>
      rcases List.mem_cons.mp hc with h | h
      · subst h
        constructor
        · simp only [List.length_take]
          omega
        · cases m with
          | zero => omega
          | succ m => simp [List.take]
      · refine ih (List.drop m (t :: ts)) c ?_ h
        rw [List.length_drop]
        simp only [List.length_cons] at hl ⊢
        omega

theorem chunkAux_getD (m : Nat) (hm : 1 ≤ m) :
    ∀ (fuel : Nat) (l : List Nat) (i : Nat), l.length ≤ fuel →
      i + 1 < (chunkAux m fuel l).length → ((chunkAux m fuel l).getD i []).length = m := by
  intro fuel
  induction fuel with
  | zero =>
    intro l i hl hi
    have : l = [] := List.eq_nil_of_length_eq_zero (Nat.le_zero.mp hl)
    subst this; simp [chunkAux] at hi
  | succ fuel ih =>
    intro l i hl hi
    cases l with
    | nil => simp [chunkAux] at hi
    | cons t ts =>
      simp only [chunkAux] at hi ⊢
      cases i with
      | zero =>
        -- the head chunk is followed by at least one more chunk, so the
        -- remaining token list was nonempty and the head window is full
        have hrest : chunkAux m fuel (List.drop m (t :: ts)) ≠ [] := by
          intro hnil
          rw [hnil] at hi
          simp at hi
        have hdrop : List.drop m (t :: ts) ≠ [] := by
          intro hnil
          exact hrest (hnil ▸ chunkAux_nil m fuel)
        have hlen : m < (t :: ts).length := List.length_lt_of_drop_ne_nil hdrop
        simp only [List.getD_cons_zero]
        rw [List.length_take]
        simp only [List.length_cons] at hlen ⊢
        omega
      | succ i =>
        simp only [List.getD_cons_succ]
        refine ih (List.drop m (t :: ts)) i ?_ (by simpa using hi)
        rw [List.length_drop]
        simp only [List.length_cons] at hl ⊢
        omega

theorem decode_join (tk : Tokenizer) :
    ∀ l : List (List Nat), String.join (l.map (decode tk)) = decode tk l.flatten := by
  intro l
  induction l with
  | nil => rfl
  | cons c cs ih =>
    simp only [List.map_cons, List.flatten_cons, decode, List.map_append] at *
    rw [strJoin_cons, strJoin_append, ih]

/-- C2. For every text and every `max_tokens >= 1`, the chunker splits the
encoding of the text into contiguous windows of at most `max_tokens` tokens,
in order, with no overlap and no gaps (the flattening of the windows is the
original token list), every window is nonempty, only the last window may be
shorter than `max_tokens`, and concatenating the decoded chunks in order
reproduces the decode of the encode of the original text. -/
theorem token_chunking_lossless (tk : Tokenizer) (text : String) (m : Nat) (hm : 1 ≤ m) :
    (chunkTokens m (tk.encode text)).flatten = tk.encode text
    ∧ (∀ c ∈ chunkTokens m (tk.encode text), c.length ≤ m ∧ c ≠ [])
    ∧ (∀ i, i + 1 < (chunkTokens m (tk.encode text)).length →
        ((chunkTokens m (tk.encode text)).getD i []).length = m)
    ∧ String.join ((chunkTokens m (tk.encode text)).map (decode tk)) = decode tk (tk.encode text) := by
  have hm0 : m ≠ 0 := by omega
  simp only [chunkTokens, if_neg hm0]
  refine ⟨chunkAux_join m hm _ _ le_rfl, fun c hc => chunkAux_mem m hm _ _ c le_rfl hc,
    fun i hi => chunkAux_getD m hm _ _ i le_rfl hi, ?_⟩
  rw [decode_join, chunkAux_join m hm _ _ le_rfl]

theorem token_chunking_lossless_witness :
    1 ≤ 2
    ∧ ((chunkTokens 2 (tkChar.encode "abcde")).flatten = tkChar.encode "abcde"
    ∧ (∀ c ∈ chunkTokens 2 (tkChar.encode "abcde"), c.length ≤ 2 ∧ c ≠ [])
    ∧ (∀ i, i + 1 < (chunkTokens 2 (tkChar.encode "abcde")).length →
        ((chunkTokens 2 (tkChar.encode "abcde")).getD i []).length = 2)
    ∧ String.join ((chunkTokens 2 (tkChar.encode "abcde")).map (decode tkChar)) =
        decode tkChar (tkChar.encode "abcde")) :=
  ⟨by decide, token_chunking_lossless tkChar "abcde" 2 (by decide)⟩

/-! ## Restructuring-client lemmas and claims C3, C10 -/

theorem sendLoop_eq (api : Nat → String → GptAttempt)
    (h : ∀ i c, api i c ≠ GptAttempt.emptyChoices) :
    ∀ (chunks : List String) (idx : Nat) (acc : String),
      sendLoop api chunks idx acc =
        (Except.ok (acc ++ String.join ((List.enumFrom idx chunks).filterMap (gptSel api))),
         chunks.length) := by
  intro chunks
  induction chunks with
  | nil =>
    intro idx acc
    show (Except.ok acc, 0)
        = (Except.ok (acc ++ String.join ((List.enumFrom idx ([] : List String)).filterMap
            (gptSel api))), ([] : List String).length)
    simp [String.join, String.append_empty]
  | cons c rest ih =>
    intro idx acc
    have henum : List.enumFrom idx (c :: rest) = (idx, c) :: List.enumFrom (idx + 1) rest := rfl
    simp only [sendLoop]
    split
    next g heq =>
      have hsel : gptSel api (idx, c) = some (g ++ "\n") := by simp [gptSel, heq]
      rw [ih (idx + 1) (acc ++ g ++ "\n"), henum, List.filterMap_cons, hsel, strJoin_cons]
      simp [String.append_assoc]
    next heq =>
      have hsel : gptSel api (idx, c) = none := by simp [gptSel, heq]
      rw [ih (idx + 1) acc, henum, List.filterMap_cons, hsel]
      simp
    next heq =>
      have hsel : gptSel api (idx, c) = none := by simp [gptSel, heq]
      rw [ih (idx + 1) acc, henum, List.filterMap_cons, hsel]
      simp
    next heq =>
      have hsel : gptSel api (idx, c) = none := by simp [gptSel, heq]
      rw [ih (idx + 1) acc, henum, List.filterMap_cons, hsel]
      simp
    next heq => exact absurd heq (h idx c)

theorem gptSel_mem_ne_empty (api : Nat → String → GptAttempt) (p : Nat × String) (x : String)
    (hx : gptSel api p = some x) : x ≠ "" := by
  unfold gptSel at hx
  rcases hapi : api p.1 p.2 with _ | _ | _ | _ | g <;> rw [hapi] at hx <;>
    simp at hx
  subst hx
  exact append_newline_ne_empty g

/-- C3 amended. As long as no response is a well-formed success with an
empty `choices` list (the uncaught `IndexError` case, see the
counterexample), a per-chunk failure (network error, HTTP error status, or
missing-key response) only skips that chunk: every chunk is attempted
(one POST per chunk), successful responses are concatenated in chunk
order, each followed by a line break, and the overall result is absent
exactly when every chunk failed. -/
theorem send_to_gpt_eq (tk : Tokenizer) (api : Nat → String → GptAttempt)
    (content : String) (m : Nat)
    (h : ∀ i c, api i c ≠ GptAttempt.emptyChoices) :
    send_to_gpt tk api content m =
      (Except.ok
        (if String.join ((((chunkTokens m (tk.encode content)).map (decode tk)).enum).filterMap
              (gptSel api)) = ""
         then none
         else some (String.join ((((chunkTokens m (tk.encode content)).map (decode tk)).enum).filterMap
              (gptSel api)))),
       ((chunkTokens m (tk.encode content)).map (decode tk)).length) := by
  unfold send_to_gpt
  rw [sendLoop_eq api h ((chunkTokens m (tk.encode content)).map (decode tk)) 0 "",
    String.empty_append]
  rfl

/-- C3 amended. As long as no response is a well-formed success with an
empty `choices` list (the uncaught `IndexError` case, see the
counterexample), a per-chunk failure (network error, HTTP error status, or
missing-key response) only skips that chunk: every chunk is attempted
(one POST per chunk), successful responses are concatenated in chunk
order, each followed by a line break, and the overall result is absent
exactly when every chunk failed. -/
theorem per_chunk_failure_isolation (tk : Tokenizer) (api : Nat → String → GptAttempt)
    (content : String) (m : Nat)
    (h : ∀ i c, api i c ≠ GptAttempt.emptyChoices) :
    (send_to_gpt tk api content m).2
        = ((chunkTokens m (tk.encode content)).map (decode tk)).length
    ∧ ((send_to_gpt tk api content m).1 = Except.ok none ↔
        ∀ p ∈ ((chunkTokens m (tk.encode content)).map (decode tk)).enum,
          gptSel api p = none)
    ∧ (∀ r, (send_to_gpt tk api content m).1 = Except.ok (some r) →
        r = String.join
            ((((chunkTokens m (tk.encode content)).map (decode tk)).enum).filterMap (gptSel api))) := by
  have hsend := send_to_gpt_eq tk api content m h
  set K := (((chunkTokens m (tk.encode content)).map (decode tk)).enum).filterMap (gptSel api)
    with hK
  have hKne : ∀ x ∈ K, x ≠ "" := by
    intro x hx
    rcases List.mem_filterMap.mp hx with ⟨p, _, hp⟩
    exact gptSel_mem_ne_empty api p x hp
  rw [hsend]
  refine ⟨rfl, ?_, ?_⟩
  · constructor
    · intro hok
      have hinj := Except.ok.inj hok
      by_cases hj : String.join K = ""
      · have hknil : K = [] := (strJoin_eq_empty_iff K hKne).mp hj
        intro p hp
        exact (List.filterMap_eq_nil_iff.mp hknil) p hp
      · rw [if_neg hj] at hinj
        exact absurd hinj (by simp)
    · intro hall
      have hknil : K = [] := List.filterMap_eq_nil_iff.mpr hall
      show Except.ok (if String.join K = "" then none else some (String.join K)) = Except.ok none
      rw [hknil]
      rfl
  · intro r hok
    have hinj := Except.ok.inj hok
    by_cases hj : String.join K = ""
    · rw [if_pos hj] at hinj
      exact absurd hinj (by simp)
    · rw [if_neg hj] at hinj
      exact (Option.some.inj hinj).symm

theorem per_chunk_failure_isolation_witness :
    (send_to_gpt tkChar apiErr "ab" 2).1 = Except.ok none :=
  (per_chunk_failure_isolation tkChar apiErr "ab" 2
      (fun i c => by simp [apiErr])).2.1.mpr
    (fun p _ => by simp [gptSel, apiErr])

/-- C3 counterexample. A malformed response does not always merely skip its
chunk: with three one-token chunks of "abc" where the second chunk's
response is a 200 whose `choices` list is empty, `['choices'][0]` raises
`IndexError`, which no handler in `send_to_gpt` catches. The call issues
two POSTs and then propagates the exception instead of returning the
claimed per-chunk-skip result "A\nC\n". -/
theorem empty_choices_response_raises :
    send_to_gpt tkChar apiMid "abc" 1 = (Except.error "IndexError", 2)
    ∧ (send_to_gpt tkChar apiMid "abc" 1).1 ≠ Except.ok (some "A\nC\n") := by
  refine ⟨rfl, ?_⟩
  rw [show (send_to_gpt tkChar apiMid "abc" 1).1 = Except.error "IndexError" from rfl]
  intro hcontra
  exact Except.noConfusion hcontra

/-- C10. An input that tokenizes to zero tokens produces zero chunks, zero
POST requests, and the absent result (`none`, not an empty-but-successful
string); consequently the orchestrator treats such a page as failed and
leaves the state untouched: no artifact is written and nothing is recorded
in the Ledger. -/
theorem zero_tokens_zero_chunks_absent :
    (∀ (tk : Tokenizer) (api : Nat → String → GptAttempt) (content : String) (m : Nat),
        tk.encode content = [] →
        chunkTokens m (tk.encode content) = []
        ∧ send_to_gpt tk api content m = (Except.ok none, 0))
    ∧ (∀ (ctx : PageCtx) (page : Nat) (text : String) (st : ProcState),
        ctx.tk.encode (mkContext page text) = [] →
        (processPage ctx page text st).state = st
        ∧ (processPage ctx page text st).llmCalls = 0) := by
  have hmain : ∀ (tk : Tokenizer) (api : Nat → String → GptAttempt) (content : String) (m : Nat),
      tk.encode content = [] →
      chunkTokens m (tk.encode content) = []
      ∧ send_to_gpt tk api content m = (Except.ok none, 0) := by
    intro tk api content m henc
    have hchunks : chunkTokens m (tk.encode content) = [] := by
      rw [henc]
      unfold chunkTokens
      split
      · rfl
      · exact chunkAux_nil m 0
    refine ⟨hchunks, ?_⟩
    unfold send_to_gpt
    rw [hchunks]
    rfl
  refine ⟨hmain, ?_⟩
  intro ctx page text st henc
  unfold processPage
  by_cases htext : text = ""
  · rw [if_pos htext]
    exact ⟨rfl, rfl⟩
  · rw [if_neg htext]
    by_cases hex : (st.fs.contentDir (restructuredName ctx page)).isSome = true
    · rw [if_pos hex]
      exact ⟨rfl, rfl⟩
    · rw [if_neg hex]
      rw [(hmain ctx.tk ctx.api (mkContext page text) 8000 henc).2]
      exact ⟨rfl, rfl⟩

/-! ## Sanitizer lemmas and claim C7 -/

theorem hex_allowed (c : Char) (h : hexDigitChar c = true) : allowedChar c = true := by
  have halnum : c.isAlphanum = true → allowedChar c = true := by
    intro ha; simp [allowedChar, ha]
  simp only [hexDigitChar, Bool.or_eq_true, Bool.and_eq_true, decide_eq_true_eq] at h
  rcases h with (hd | ⟨h1, h2⟩) | ⟨h1, h2⟩
  · exact halnum (by simp [Char.isAlphanum, hd])
  · refine halnum ?_
    have h1n : 97 ≤ c.val.toNat := Char.le_def.mp h1
    have h2n : c.val.toNat ≤ 102 := Char.le_def.mp h2
    have hlow : c.isLower = true := by
      simp only [Char.isLower, ge_iff_le, Bool.and_eq_true, decide_eq_true_eq]
      exact ⟨h1n, show c.val.toNat ≤ 122 by omega⟩
    simp [Char.isAlphanum, Char.isAlpha, hlow]
  · refine halnum ?_
    have h1n : 65 ≤ c.val.toNat := Char.le_def.mp h1
    have h2n : c.val.toNat ≤ 70 := Char.le_def.mp h2
    have hup : c.isUpper = true := by
      simp only [Char.isUpper, ge_iff_le, Bool.and_eq_true, decide_eq_true_eq]
      exact ⟨h1n, show c.val.toNat ≤ 90 by omega⟩
    simp [Char.isAlphanum, Char.isAlpha, hup]

theorem sanitizeChar_allowed (c : Char) : allowedChar (sanitizeChar c) = true := by
  unfold sanitizeChar
  by_cases h : (pythonWordChar c || c = '-' || c = '.') = true
  · rw [if_pos h]
    simp only [pythonWordChar, Bool.or_eq_true, decide_eq_true_eq] at h
    rcases h with ((ha | hu) | hm) | hd
    · simp [allowedChar, ha]
    · subst hu; decide
    · subst hm; decide
    · subst hd; decide
  · rw [if_neg h]
    decide

theorem digitChar_isDigit : ∀ k, k < 10 → (digitChar k).isDigit = true := by decide

theorem toDigitsAux_digits : ∀ fuel n, ∀ c ∈ toDigitsAux fuel n, c.isDigit = true := by
  intro fuel
  induction fuel with
  | zero =>
    intro n c hc
    simp only [toDigitsAux, List.mem_singleton] at hc
    subst hc
    exact digitChar_isDigit _ (Nat.mod_lt n (by omega))
  | succ fuel ih =>
    intro n c hc
    by_cases h10 : n < 10
    · simp only [toDigitsAux, if_pos h10, List.mem_singleton] at hc
      subst hc
      exact digitChar_isDigit n h10
    · simp only [toDigitsAux, if_neg h10, List.mem_append, List.mem_singleton] at hc
      rcases hc with hc | hc
      · exact ih (n / 10) c hc
      · subst hc
        exact digitChar_isDigit _ (Nat.mod_lt n (by omega))

theorem toDigitsAux_length_le : ∀ (fuel n k : Nat), 1 ≤ k → n < 10 ^ k →
    (toDigitsAux fuel n).length ≤ k := by
  intro fuel
  induction fuel with
  | zero =>
    intro n k hk _
    simp only [toDigitsAux, List.length_singleton]
    omega
  | succ fuel ih =>
    intro n k hk hn
    by_cases h10 : n < 10
    · simp only [toDigitsAux, if_pos h10, List.length_singleton]
      omega
    · simp only [toDigitsAux, if_neg h10, List.length_append, List.length_singleton]
      have hk2 : 2 ≤ k := by
        by_contra hcon
        have hk1 : k = 1 := by omega
        subst hk1
        rw [pow_one] at hn
        omega
      have hdiv : n / 10 < 10 ^ (k - 1) := by
        rw [Nat.div_lt_iff_lt_mul (by omega : (0:Nat) < 10)]
        calc n < 10 ^ k := hn
          _ = 10 ^ (k - 1) * 10 := by
              rw [← pow_succ]
              congr 1
              omega
      have := ih (n / 10) (k - 1) (by omega) hdiv
      omega

theorem pad3_length (p : Nat) :
    3 ≤ (pad3 p).length ∧ (p < 1000 → (pad3 p).length = 3) := by
  have hlen : (pad3 p).length
      = (List.replicate (3 - (decimalDigits p).length) '0' ++ decimalDigits p).length := rfl
  rw [List.length_append, List.length_replicate] at hlen
  constructor
  · rw [hlen]; omega
  · intro hp
    have hle : (decimalDigits p).length ≤ 3 := by
      refine toDigitsAux_length_le p p 3 (by omega) ?_
      have h1000 : (10:Nat) ^ 3 = 1000 := by norm_num
      omega
    rw [hlen]; omega

theorem splitextRoot_mem (s : String) (c : Char) (hc : c ∈ (splitextRoot s).data) :
    c ∈ s.data := by
  unfold splitextRoot at hc
  split at hc
  · exact hc
  · split at hc
    · exact hc
    · exact List.mem_of_mem_take hc

theorem sanitizedStem_allowed (url : String) :
    ∀ c ∈ (sanitizedStem url).data, allowedChar c = true := by
  intro c hc
  have hsub : c ∈ (String.mk
      ((if basename url = "" then "index" else basename url).data.map sanitizeChar)).data :=
    splitextRoot_mem _ c hc
  rcases List.mem_map.mp hsub with ⟨a, _, ha⟩
  rw [← ha]
  exact sanitizeChar_allowed a

/-- C7 amended. For every identifier made of ASCII characters (where this
model of the Python regex `\w` is exact), every hex fingerprint, every page
number and every extension whose own characters lie in `[A-Za-z0-9_.-]`,
the sanitized filename contains only characters in `[A-Za-z0-9_.-]`: every
character outside {alphanumeric, `-`, `_`, `.`} of the base name is
replaced with `_`; an empty base name falls back to `"index"`; the page
number appears zero-padded to 3 digits between the base name and the
fingerprint. The extension argument itself is appended verbatim, not
sanitized — the restriction on its characters is necessary (see the
counterexample). -/
theorem sanitize_filename_charset (urlHash url fileType extension : String) (p : Nat)
    (hhash : ∀ c ∈ urlHash.data, hexDigitChar c = true)
    (hurl : ∀ c ∈ url.data, isAsciiChar c = true)
    (hext : ∀ c ∈ extension.data, allowedChar c = true) :
    (∀ c ∈ (sanitize_filename urlHash url fileType extension (some p)).data, allowedChar c = true)
    ∧ sanitize_filename urlHash url fileType extension (some p)
        = sanitizedStem url ++ "_page_" ++ pad3 p ++ "_" ++ urlHash ++ extension
    ∧ 3 ≤ (pad3 p).length ∧ (p < 1000 → (pad3 p).length = 3)
    ∧ (basename url = "" →
        sanitize_filename urlHash url fileType extension (some p)
          = "index" ++ "_page_" ++ pad3 p ++ "_" ++ urlHash ++ extension) := by
  refine ⟨?_, rfl, (pad3_length p).1, (pad3_length p).2, ?_⟩
  · intro c hc
    unfold sanitize_filename at hc
    simp only [String.data_append, List.mem_append] at hc
    rcases hc with ((((hstem | hpage) | hpad) | hus) | hhsh) | hx
    · exact sanitizedStem_allowed url c hstem
    · exact (by decide : ∀ x ∈ ("_page_" : String).data, allowedChar x = true) c hpage
    · have hpad' : c ∈ List.replicate (3 - (decimalDigits p).length) '0' ++ decimalDigits p :=
        hpad
      rcases List.mem_append.mp hpad' with hz | hd
      · rw [List.eq_of_mem_replicate hz]
        decide
      · have := toDigitsAux_digits p p c hd
        simp [allowedChar, Char.isAlphanum, this]
    · exact (by decide : ∀ x ∈ ("_" : String).data, allowedChar x = true) c hus
    · exact hex_allowed c (hhash c hhsh)
    · exact hext c hx
  · intro hb
    have hstem : sanitizedStem url = "index" := by
      unfold sanitizedStem
      rw [hb]
      decide
    show sanitizedStem url ++ "_page_" ++ pad3 p ++ "_" ++ urlHash ++ extension = _
    rw [hstem]

theorem sanitize_filename_charset_witness :
    (∀ c ∈ ("d41d8cd9" : String).data, hexDigitChar c = true)
    ∧ (∀ c ∈ ("report final?.pdf" : String).data, isAsciiChar c = true)
    ∧ (∀ c ∈ ("_restructured.txt" : String).data, allowedChar c = true)
    ∧ (∀ c ∈ (sanitize_filename "d41d8cd9" "report final?.pdf" "Doc" "_restructured.txt"
          (some 7)).data, allowedChar c = true) :=
  ⟨by decide, by decide, by decide,
   (sanitize_filename_charset "d41d8cd9" "report final?.pdf" "Doc" "_restructured.txt" 7
      (by decide) (by decide) (by decide)).1⟩

/-- C7 counterexample. The claim quantifies over every extension, but the
extension argument is appended verbatim without sanitization: with the
extension "?ext" the result contains the character `?`, which is outside
`[A-Za-z0-9_.-]`, even though the fingerprint is 8 hex characters and the
base name itself was sanitized (`?` and space became `_`). -/
theorem extension_not_sanitized :
    (∀ c ∈ ("d41d8cd9" : String).data, hexDigitChar c = true)
    ∧ sanitize_filename "d41d8cd9" "report final?.pdf" "Doc" "?ext" none
        = "report_final__d41d8cd9?ext"
    ∧ ¬ (∀ c ∈ (sanitize_filename "d41d8cd9" "report final?.pdf" "Doc" "?ext" none).data,
          allowedChar c = true) := by
  refine ⟨by decide, by decide, ?_⟩
  intro hall
  exact absurd (hall '?' (by decide)) (by decide)

theorem zero_tokens_zero_chunks_absent_witness :
    send_to_gpt tkEmpty apiOk "some page text" 8000 = (Except.ok none, 0)
    ∧ (processPage { ctxOk with tk := tkEmpty } 1 "some page text" stEmpty).state = stEmpty :=
  ⟨(zero_tokens_zero_chunks_absent.1 tkEmpty apiOk "some page text" 8000 rfl).2,
   (zero_tokens_zero_chunks_absent.2 { ctxOk with tk := tkEmpty } 1 "some page text" stEmpty rfl).1⟩

/-! ## DOCX extraction and claim C6 -/

/-- C6. The claim states the intended behavior of lines 144-172, but the
proxy-object hack makes the code diverge from it: on the claim's own body
(paragraph "Intro", table [["A","B"],["1","2"]], paragraph "Outro") the
walk aborts with `IndexError` at `Document().tables[0]` — a blank document
has no tables — so extraction returns zero pages instead of the claimed
single page 1 with interleaved marker-wrapped table rows; and even a
paragraph-only body contributes the blank template paragraph's empty text
rather than the walked paragraph's text, because `.text` reads `_p`, not
the reassigned `_element`. -/
theorem docx_extraction_returns_no_pages :
    docxWalk docxExampleBody = Except.error "IndexError"
    ∧ extract_text_from_docx docxExampleBody = []
    ∧ extract_text_from_docx [DocxElement.para "Intro"] = [(1, templateParagraphText)]
    ∧ extract_text_from_docx [DocxElement.para "Intro"] ≠ [(1, "Intro")] := by
  refine ⟨rfl, rfl, rfl, ?_⟩
  decide

/-! ## PDF extraction and claims C8, C9 -/

theorem extractPdfGo_mem (ocr : Nat → String) :
    ∀ (pages : List (Except String String)) (n m : Nat) (s : String),
      (m, s) ∈ extractPdfGo ocr pages n →
      ∃ j raw, pages.get? j = some (Except.ok raw) ∧ m = n + j
        ∧ pyStrip (if pyStrip raw = "" then ocr (n + j) else raw) ≠ ""
        ∧ s = formatPdfPage (n + j) (if pyStrip raw = "" then ocr (n + j) else raw) := by
  intro pages
  induction pages with
  | nil =>
    intro n m s h
    simp [extractPdfGo] at h
  | cons pg rest ih =>
    intro n m s h
    cases pg with
    | error e => simp [extractPdfGo] at h
    | ok raw =>
      simp only [extractPdfGo] at h
      rcases List.mem_append.mp h with h1 | h2
      · by_cases hstrip : pyStrip (if pyStrip raw = "" then ocr n else raw) = ""
        · rw [if_pos hstrip] at h1
          simp at h1
        · rw [if_neg hstrip] at h1
          simp only [List.mem_singleton, Prod.mk.injEq] at h1
          obtain ⟨hm1, hs1⟩ := h1
          subst hm1
          exact ⟨0, raw, rfl, by omega, by rw [Nat.add_zero]; exact hstrip,
            by rw [Nat.add_zero]; exact hs1⟩
      · rcases ih (n + 1) m s h2 with ⟨j, raw', hget, hm, hne, hs⟩
        have hadd : n + 1 + j = n + (j + 1) := by omega
        rw [hadd] at hm hne hs
        exact ⟨j + 1, raw', by simpa using hget, hm, hne, hs⟩

/-- C8. A PDF page whose native text is empty or whitespace-only and whose
OCR fallback also returns empty text is not emitted in the extractor's
output sequence: no entry with its page number appears. -/
theorem empty_pages_not_emitted (ocr : Nat → String) (pages : List (Except String String))
    (i : Nat) (raw : String)
    (hread : pages.get? i = some (Except.ok raw))
    (hnative : pyStrip raw = "")
    (hocr : ocr (i + 1) = "") :
    ∀ s, (i + 1, s) ∉ extract_text_from_pdf ocr pages := by
  intro s hmem
  rcases extractPdfGo_mem ocr pages 1 (i + 1) s hmem with ⟨j, raw', hget, hm, hne, _⟩
  have hj : j = i := by omega
  subst hj
  rw [hread] at hget
  have hraw : raw' = raw := by
    have := Option.some.inj hget
    exact (Except.ok.inj this).symm
  subst hraw
  rw [if_pos hnative] at hne
  apply hne
  rw [show 1 + j = j + 1 from by omega, hocr]
  rfl

theorem empty_pages_not_emitted_witness :
    (([Except.ok "  ", Except.ok "hello"] : List (Except String String)).get? 0
        = some (Except.ok "  ")
    ∧ pyStrip "  " = "" ∧ ocrEmpty 1 = "")
    ∧ (1, "anything") ∉ extract_text_from_pdf ocrEmpty [Except.ok "  ", Except.ok "hello"] :=
  ⟨⟨rfl, by decide, rfl⟩,
   empty_pages_not_emitted ocrEmpty [Except.ok "  ", Except.ok "hello"] 0 "  "
     rfl (by decide) rfl "anything"⟩

theorem extractPdfGo_append_error (ocr : Nat → String) :
    ∀ (good : List (Except String String)), (∀ x ∈ good, ∃ raw, x = Except.ok raw) →
      ∀ (e : String) (rest : List (Except String String)) (n : Nat),
        extractPdfGo ocr (good ++ Except.error e :: rest) n = extractPdfGo ocr good n := by
  intro good
  induction good with
  | nil => intro _ e rest n; rfl
  | cons pg g ih =>
    intro hgood e rest n
    rcases hgood pg (List.mem_cons_self pg g) with ⟨raw, hraw⟩
    subst hraw
    simp only [List.cons_append, extractPdfGo]
    rw [List.append_eq, ih (fun x hx => hgood x (List.mem_cons_of_mem _ hx)) e rest (n + 1)]

/-- C9. A page-read failure aborts extraction for that file only: the
embedding of the `except` handler returns exactly the pages collected from
the prefix before the first raising page, and no exception propagates (the
extractor is a total function into page lists). -/
theorem page_read_failure_returns_prefix (ocr : Nat → String)
    (good : List (Except String String)) (e : String) (rest : List (Except String String))
    (hgood : ∀ x ∈ good, ∃ raw, x = Except.ok raw) :
    extract_text_from_pdf ocr (good ++ Except.error e :: rest)
      = extract_text_from_pdf ocr good :=
  extractPdfGo_append_error ocr good hgood e rest 1

theorem page_read_failure_returns_prefix_witness :
    extract_text_from_pdf ocrEmpty
        [Except.ok "hello", Except.error "PdfReadError", Except.ok "world"]
      = extract_text_from_pdf ocrEmpty [Except.ok "hello"] :=
  page_read_failure_returns_prefix ocrEmpty [Except.ok "hello"] "PdfReadError" [Except.ok "world"]
    (by
      intro x hx
      rw [List.mem_singleton] at hx
      exact ⟨"hello", hx⟩)

/-! ## Orchestrator claims C1, C4, C5 -/

/-- C1 counterexample. The Processed-File Ledger is loaded and appended-to
but never consulted for the skip decision: in a state whose Ledger (file
and in-memory set) already contains the restructured output path while the
file itself is absent from the content directory, the orchestrator still
issues an LLM request, writes the artifact, and appends a duplicate ledger
line — contradicting the claim that Ledger membership alone skips the
page with no LLM call and no disk write. -/
theorem ledger_membership_does_not_skip :
    restructuredName ctxOk 1 ∈ stLedgerOnly.processedFiles
    ∧ stLedgerOnly.fs.contentDir (restructuredName ctxOk 1) = none
    ∧ (processPage ctxOk 1 "hello" stLedgerOnly).llmCalls = 1
    ∧ ((processPage ctxOk 1 "hello" stLedgerOnly).state.fs.contentDir
        (restructuredName ctxOk 1)).isSome = true
    ∧ (processPage ctxOk 1 "hello" stLedgerOnly).state.fs.ledgerLines
        = stLedgerOnly.fs.ledgerLines ++ ["crawler_output/content/" ++ restructuredName ctxOk 1] :=
  ⟨by decide, rfl, rfl, rfl, rfl⟩

/-- C1 amended. For every page, before any restructuring call the
deterministic output filename is computed and the content directory is
consulted via `os.path.exists`: when the restructured output file already
exists on disk, the page is skipped with no LLM call, no disk write and no
ledger append. (The Ledger is loaded at startup and appended after
success, but it is the on-disk existence check, not Ledger membership,
that gates skipping.) -/
theorem skip_gated_by_existing_output_file (ctx : PageCtx) (page : Nat) (text : String)
    (st : ProcState)
    (h : (st.fs.contentDir (restructuredName ctx page)).isSome = true) :
    processPage ctx page text st = { state := st, llmCalls := 0, raised := none } := by
  unfold processPage
  by_cases htext : text = ""
  · rw [if_pos htext]
  · rw [if_neg htext, if_pos h]

theorem skip_gated_by_existing_output_file_witness :
    ((stOnDisk.fs.contentDir (restructuredName ctxOk 1)).isSome = true)
    ∧ processPage ctxOk 1 "hello" stOnDisk = { state := stOnDisk, llmCalls := 0, raised := none } :=
  ⟨rfl, skip_gated_by_existing_output_file ctxOk 1 "hello" stOnDisk rfl⟩

/-- C4. When restructuring returns the absent result, the orchestrator
writes no restructured artifact, writes no raw-text artifact, and records
nothing in the Ledger — the content directory, the ledger file and the
in-memory set are all unchanged — and no exception is raised, so a later
re-run will retry the page. -/
theorem absent_result_writes_nothing (ctx : PageCtx) (page : Nat) (text : String) (st : ProcState)
    (h : (send_to_gpt ctx.tk ctx.api (mkContext page text) 8000).1 = Except.ok none) :
    (processPage ctx page text st).state = st
    ∧ (processPage ctx page text st).state.fs.contentDir = st.fs.contentDir
    ∧ (processPage ctx page text st).state.fs.ledgerLines = st.fs.ledgerLines
    ∧ (processPage ctx page text st).state.processedFiles = st.processedFiles
    ∧ (processPage ctx page text st).raised = none := by
  have hst : (processPage ctx page text st).state = st
      ∧ (processPage ctx page text st).raised = none := by
    unfold processPage
    by_cases htext : text = ""
    · rw [if_pos htext]
      exact ⟨rfl, rfl⟩
    · rw [if_neg htext]
      by_cases hex : (st.fs.contentDir (restructuredName ctx page)).isSome = true
      · rw [if_pos hex]
        exact ⟨rfl, rfl⟩
      · rw [if_neg hex]
        rcases hsg : send_to_gpt ctx.tk ctx.api (mkContext page text) 8000 with ⟨res, n⟩
        rw [hsg] at h
        have hres : res = Except.ok none := h
        subst hres
        exact ⟨rfl, rfl⟩
  refine ⟨hst.1, ?_, ?_, ?_, hst.2⟩ <;> rw [hst.1]

theorem absent_result_writes_nothing_witness :
    ((send_to_gpt ctxErr.tk ctxErr.api (mkContext 1 "hi") 8000).1 = Except.ok none)
    ∧ (processPage ctxErr 1 "hi" stEmpty).state = stEmpty :=
  ⟨rfl, (absent_result_writes_nothing ctxErr 1 "hi" stEmpty rfl).1⟩

/-- C5 counterexample. Re-running over unchanged inputs with the
restructured artifact already on disk does NOT overwrite the companion
raw-text artifact: the existence check skips the page before any write, so
the stale raw content "OLDRAW" remains even though the current page text
is "hello" — contradicting the claim that raw artifacts are overwritten
on re-runs. -/
theorem rerun_does_not_overwrite_raw :
    (stOnDisk.fs.contentDir (restructuredName ctxOk 1)).isSome = true
    ∧ stOnDisk.fs.contentDir (rawName ctxOk 1) = some "OLDRAW"
    ∧ (processPage ctxOk 1 "hello" stOnDisk).state.fs.contentDir (rawName ctxOk 1)
        = some "OLDRAW"
    ∧ ("OLDRAW" : String) ≠ "hello"
    ∧ (processPage ctxOk 1 "hello" stOnDisk).llmCalls = 0 :=
  ⟨rfl, rfl, rfl, by decide, rfl⟩

/-- C5 amended. Re-running the pipeline over unchanged inputs with the
restructured artifact already on disk is a complete no-op for that page:
no LLM call is made, the restructured artifact is not rewritten, the raw
artifact is NOT overwritten, and nothing is appended to the Ledger —
because the raw write sits in the same branch that the restructured-file
existence check skips (raw writes are not gated by the Ledger but by that
same existence check). -/
theorem rerun_noop_for_existing_output (ctx : PageCtx) (page : Nat) (text : String)
    (st : ProcState)
    (h : (st.fs.contentDir (restructuredName ctx page)).isSome = true) :
    (processPage ctx page text st).state.fs.contentDir (rawName ctx page)
        = st.fs.contentDir (rawName ctx page)
    ∧ (processPage ctx page text st).state.fs.contentDir (restructuredName ctx page)
        = st.fs.contentDir (restructuredName ctx page)
    ∧ (processPage ctx page text st).llmCalls = 0
    ∧ (processPage ctx page text st).state.fs.ledgerLines = st.fs.ledgerLines
    ∧ (processPage ctx page text st).state.processedFiles = st.processedFiles := by
  have hskip : processPage ctx page text st = { state := st, llmCalls := 0, raised := none } := by
    unfold processPage
    by_cases htext : text = ""
    · rw [if_pos htext]
    · rw [if_neg htext, if_pos h]
  rw [hskip]
  exact ⟨rfl, rfl, rfl, rfl, rfl⟩

theorem rerun_noop_for_existing_output_witness :
    ((stOnDisk.fs.contentDir (restructuredName ctxOk 1)).isSome = true)
    ∧ (processPage ctxOk 1 "hello" stOnDisk).state.fs.contentDir (rawName ctxOk 1)
        = stOnDisk.fs.contentDir (rawName ctxOk 1) :=
  ⟨rfl, (rerun_noop_for_existing_output ctxOk 1 "hello" stOnDisk rfl).1⟩

end Ouellet
